import Mathlib

/-
  Verification development for the crypto market dashboard's statistics and
  metric-processor engine (services/mathUtils and services/binanceService).

  Embedding conventions:
  * JavaScript floating-point numbers are modelled as real numbers (`ℝ`)
    where the code takes square roots or logarithms, and as rationals (`ℚ`)
    in the purely field-arithmetic parts (percentile ranks, breadth
    aggregation, funding annualization), so that concrete runs can be
    evaluated by `decide`.
  * The numeric-string fields of a candle (`close`, `volume`, `fundingRate`)
    are stored directly as the rational number they denote; `parseFloat` is
    the identity under this representation.
  * `Record<string, T>` objects are association lists `List (String × T)`;
    a write sequence is modelled so that the most recent write wins on
    lookup, matching JavaScript property assignment.
  * `new Date(t).toISOString().split('T')[0]` is injective per calendar day:
    two timestamps produce the same date string exactly when they fall in
    the same UTC day, i.e. when `t / 86400000` agrees.  We therefore model
    the date key of a timestamp as that integer day number.
  * `Array.prototype.findIndex` returning `-1` followed by the
    `if (index === -1) index = length` fixup is `List.findIdx`, which
    already returns the length when no element matches.
-/

/-- Day-number key of a millisecond timestamp: models the date string
`new Date(t).toISOString().split('T')[0]` (same string ↔ same UTC day). -/
def dayOf (t : Int) : Int := t / 86400000

/-- One OHLCV candle (types.ts `Kline`), with numeric-string fields parsed. -/
structure Kline where
  openTime : Int
  open' : ℚ
  high : ℚ
  low : ℚ
  close : ℚ
  volume : ℚ
  closeTime : Int
  deriving DecidableEq, Repr

instance : Inhabited Kline := ⟨⟨0, 0, 0, 0, 0, 0, 0⟩⟩

set_option maxRecDepth 40000

/-- One funding-rate observation (types.ts `FundingRate`). -/
structure FundingRate where
  symbol : String
  fundingRate : ℚ
  fundingTime : Int
  deriving DecidableEq, Repr

/-
  Statistics library (services/mathUtils.ts).
-/
/-- Embeds `calculatePercentile` (mathUtils).  Generic over the ordered field
so the same definition serves the `ℚ`-valued funding processor and the
`ℝ`-valued volatility processor.  The in-place ascending `sort((a, b) => a - b)`
is modelled by `insertionSort (· ≤ ·)`: any two ascending-sorted permutations
of the same list are equal. -/
def calculatePercentile {α : Type*} [LinearOrderedField α]
    (data : List α) (value : α) (absolute : Bool) : α :=
  if data.length = 0 then 0
  else
    let processedData := if absolute then data.map (fun v => |v|) else data
    let processedValue := if absolute then |value| else value
    let sorted := processedData.insertionSort (· ≤ ·)
    let index := sorted.findIdx (fun v => processedValue ≤ v)
    ((index : α) / (processedData.length : α)) * 100

/-- Embeds `calculateCorrelation` (mathUtils): Pearson correlation by the
sum formula, with the two guard clauses of the source. -/
noncomputable def calculateCorrelation (x y : List ℝ) : ℝ :=
  if x.length ≠ y.length ∨ x.length = 0 then 0
  else
    let n : ℝ := x.length
    let sumX := x.sum
    let sumY := y.sum
    let sumXY := ((List.range x.length).map fun i => x.getD i 0 * y.getD i 0).sum
    let sumX2 := (x.map fun xi => xi * xi).sum
    let sumY2 := (y.map fun yi => yi * yi).sum
    let numerator := n * sumXY - sumX * sumY
    let denominator := Real.sqrt ((n * sumX2 - sumX * sumX) * (n * sumY2 - sumY * sumY))
    if denominator = 0 then 0 else numerator / denominator

/-- Embeds `calculateStdDev` (mathUtils): population standard deviation. -/
noncomputable def calculateStdDev (data : List ℝ) : ℝ :=
  if data.length = 0 then 0
  else
    let mean := data.sum / (data.length : ℝ)
    let variance := (data.map fun b => (b - mean) ^ 2).sum / (data.length : ℝ)
    Real.sqrt variance

/-- Embeds `calculateExponentialVol` (mathUtils): exponentially weighted
volatility over the trailing `windowSize` returns, decay 0.94, variance
centred on the simple mean of the window. -/
noncomputable def calculateExponentialVol (returns : List ℝ) (windowSize : Nat) : ℝ :=
  if returns.length < windowSize then 0
  else
    let windowReturns := returns.drop (returns.length - windowSize)
    let decay : ℝ := 0.94
    let weights := (List.range windowSize).map fun i => decay ^ i
    let weightSum := weights.sum
    let normWeights := weights.map fun w => w / weightSum
    let mean := windowReturns.sum / (windowSize : ℝ)
    let weightedVariance :=
      ((List.range windowSize).map fun i =>
        normWeights.getD i 0 * (windowReturns.getD (windowSize - 1 - i) 0 - mean) ^ 2).sum
    Real.sqrt weightedVariance

/-- Embeds `calculateZScore` (mathUtils). -/
noncomputable def calculateZScore (value : ℝ) (history : List ℝ) : ℝ :=
  let mean := history.sum / (history.length : ℝ)
  let std := calculateStdDev history
  if std = 0 then 0 else (value - mean) / std

/-- The scaled variance numerator `n·Σx² − (Σx)²` appearing inside
`calculateCorrelation`'s denominator. -/
noncomputable def corrD (x : List ℝ) : ℝ :=
  (x.length : ℝ) * (x.map fun xi => xi * xi).sum - x.sum * x.sum

/-
  C5: factor-score universe construction (processFactorMetrics,
  binanceService lines 324-338).  The momentum factor is scored on the
  first universe (`top25`) and the mean-reversion factor on the second
  (`cleanBottom25`); only their construction is relevant to the claim.
-/
/-- Embeds the universe-construction prefix of `processFactorMetrics`:
trailing-30-candle dollar volume per asset, descending sort, top 25,
bottom 25 (`slice(-25)`), and removal of top-25 members from the bottom
list. -/
def processFactorUniverses (assets : List String)
    (klinesMap : List (String × List Kline)) : List String × List String :=
  let volumeMap := assets.filterMap fun asset =>
    match klinesMap.lookup asset with
    | none => none
    | some klines =>
      if klines.length < 30 then none
      else
        let last30 := klines.drop (klines.length - 30)
        let finVol := (last30.map fun k => k.close * k.volume).sum
        some (asset, finVol)
  let sorted := volumeMap.insertionSort fun a b => b.2 ≤ a.2
  let top25 := (sorted.take 25).map Prod.fst
  let bottom25 := (sorted.drop (sorted.length - 25)).map Prod.fst
  let cleanBottom25 := bottom25.filter fun s => !(top25.contains s)
  (top25, cleanBottom25)

/-- Constant-price candle used by concrete test inputs. -/
def simpleKline (c v : ℚ) : Kline := ⟨0, 0, 0, 0, c, v, 0⟩

def c5Assets : List String := ["A01", "A02", "A03", "A04", "A05", "A06", "A07", "A08", "A09", "A10", "A11", "A12", "A13", "A14", "A15", "A16", "A17", "A18", "A19", "A20", "A21", "A22", "A23", "A24", "A25", "A26"]

def c5Map : List (String × List Kline) :=
  [("A01", List.replicate 30 (simpleKline 1 260)),
   ("A02", List.replicate 30 (simpleKline 1 250)),
   ("A03", List.replicate 30 (simpleKline 1 240)),
   ("A04", List.replicate 30 (simpleKline 1 230)),
   ("A05", List.replicate 30 (simpleKline 1 220)),
   ("A06", List.replicate 30 (simpleKline 1 210)),
   ("A07", List.replicate 30 (simpleKline 1 200)),
   ("A08", List.replicate 30 (simpleKline 1 190)),
   ("A09", List.replicate 30 (simpleKline 1 180)),
   ("A10", List.replicate 30 (simpleKline 1 170)),
   ("A11", List.replicate 30 (simpleKline 1 160)),
   ("A12", List.replicate 30 (simpleKline 1 150)),
   ("A13", List.replicate 30 (simpleKline 1 140)),
   ("A14", List.replicate 30 (simpleKline 1 130)),
   ("A15", List.replicate 30 (simpleKline 1 120)),
   ("A16", List.replicate 30 (simpleKline 1 110)),
   ("A17", List.replicate 30 (simpleKline 1 100)),
   ("A18", List.replicate 30 (simpleKline 1 90)),
   ("A19", List.replicate 30 (simpleKline 1 80)),
   ("A20", List.replicate 30 (simpleKline 1 70)),
   ("A21", List.replicate 30 (simpleKline 1 60)),
   ("A22", List.replicate 30 (simpleKline 1 50)),
   ("A23", List.replicate 30 (simpleKline 1 40)),
   ("A24", List.replicate 30 (simpleKline 1 30)),
   ("A25", List.replicate 30 (simpleKline 1 20)),
   ("A26", List.replicate 30 (simpleKline 1 10))]

/-
  C6: volume-metric exclusion at 89 candles vs funding-metric inclusion
  (processVolumeMetrics, processFundingMetrics).
-/
/-- Volume anomaly classification labels. -/
inductive ChangeStatus where
  | INCREASE
  | DECREASE
  | NEUTRAL
  deriving DecidableEq, Repr

/-- Output row of the volume anomaly processor (types.ts `VolumeMetric`). -/
structure VolumeMetric where
  symbol : String
  zScore : ℝ
  changeStatus : ChangeStatus
  last7DayAvg : ℝ
  last90DayAvg : ℝ

/-- Output row of the funding percentile processor (types.ts
`FundingMetric`). -/
structure FundingMetric where
  symbol : String
  currentRate : ℚ
  percentile : ℚ
  deriving DecidableEq, Repr

/-- Per-asset body of `processVolumeMetrics`: requires 90 candles, takes the
trailing 90 volumes, 7-day vs 90-day averages, z-score and threshold
classification. -/
noncomputable def volumeMetricFor (map : List (String × List Kline))
    (asset : String) : Option VolumeMetric :=
  match map.lookup asset with
  | none => none
  | some klines =>
    if klines.length < 90 then none
    else
      let volumes := (klines.drop (klines.length - 90)).map fun k => (k.volume : ℝ)
      let last7 := volumes.drop (volumes.length - 7)
      let avg7 := last7.sum / 7
      let avg90 := volumes.sum / 90
      let zScore := calculateZScore avg7 volumes
      some ⟨asset, zScore,
        if 1 < zScore then ChangeStatus.INCREASE
        else if zScore < -1 then ChangeStatus.DECREASE
        else ChangeStatus.NEUTRAL, avg7, avg90⟩

/-- Embeds `processVolumeMetrics` (binanceService lines 215-233). -/
noncomputable def processVolumeMetrics (assets : List String)
    (map : List (String × List Kline)) : List VolumeMetric :=
  assets.filterMap (volumeMetricFor map)

/-- Milliseconds in the funding processor's 90-day recency window. -/
def ninetyDaysMs : Int := 90 * 24 * 60 * 60 * 1000

/-- Per-asset body of `processFundingMetrics`: keep observations from the
last 90 days, annualize (`rate × 3 × 365`), take the last value as current,
and rank it by absolute value. -/
def fundingMetricFor (map : List (String × List FundingRate)) (now : Int)
    (asset : String) : Option FundingMetric :=
  match map.lookup asset with
  | none => none
  | some rates =>
    if rates.length = 0 then none
    else
      let recentRates := rates.filter fun r => now - r.fundingTime ≤ ninetyDaysMs
      if recentRates.length = 0 then none
      else
        let values := recentRates.map fun r => r.fundingRate * 3 * 365
        let currentRate := values.getD (values.length - 1) 0
        some ⟨asset, currentRate, calculatePercentile values currentRate true⟩

/-- Embeds `processFundingMetrics` (binanceService lines 164-181). -/
def processFundingMetrics (assets : List String)
    (map : List (String × List FundingRate)) (now : Int) : List FundingMetric :=
  assets.filterMap (fundingMetricFor map now)

/-- Concrete 89-candle series for the C6 witness. -/
def c6Klines : List Kline := List.replicate 89 (simpleKline 1 1)

/-- Concrete one-observation funding history for the C6 witness. -/
def c6Funding : List FundingRate := [⟨"AAA", 1, 0⟩]

/-
  Correlation processor (processCorrelationData, binanceService lines
  236-322), split into named parts so the claims can reference the
  intermediate series.
-/
/-- One point of the rolling-correlation history (types.ts
`CorrelationPoint`); the date string is modelled by its day number. -/
structure CorrelationPoint where
  date : Int
  corr10 : ℝ
  corr30 : ℝ
  corr60 : ℝ
  corr90 : ℝ

/-- Correlation matrix output (types.ts `CorrelationMatrix`). -/
structure CorrelationMatrix where
  assets : List String
  matrix : List (List ℝ)

/-- Combined output of the correlation processor. -/
structure CorrelationData where
  matrix : CorrelationMatrix
  history : List CorrelationPoint

/-- Daily log-return write sequence of a candle list: one
`(day, log(close/prevClose))` pair per consecutive candle pair, keyed by the
later candle's day.  (The source recovers the previous candle through
`indexOf`, which is the predecessor whenever candles are pairwise distinct —
guaranteed by the distinct-`closeTime` invariant.) -/
noncomputable def returnWrites (klines : List Kline) : List (Int × ℝ) :=
  (klines.zip klines.tail).map fun p =>
    (dayOf p.2.closeTime, Real.log ((p.2.close : ℝ) / (p.1.close : ℝ)))

/-- A JavaScript object built by a write sequence, as an association list:
prepending later writes makes the most recent write win on `lookup`. -/
def recordOfWrites {β : Type} (ws : List (Int × β)) : List (Int × β) :=
  ws.foldl (fun m e => e :: m) []

/-- Date-keyed return record of one asset (`assetRet` / `rMap` in the
source). -/
noncomputable def returnsMapOf (klines : List Kline) : List (Int × ℝ) :=
  recordOfWrites (returnWrites klines)

/-- Dates of the reference asset's return series (`analysisDates`). -/
noncomputable def corrAnalysisDates (map : List (String × List Kline)) : List Int :=
  (returnWrites ((map.lookup "BTC").getD [])).map Prod.fst

/-- The most recent 30 reference-asset return dates (`last30Dates`). -/
noncomputable def corrLast30Dates (map : List (String × List Kline)) : List Int :=
  let btcReturns := returnWrites ((map.lookup "BTC").getD [])
  (btcReturns.drop (btcReturns.length - 30)).map Prod.fst

/-- Per-asset alignment against the last 30 reference dates
(`alignedReturns`): an asset missing any of the 30 dates is dropped. -/
noncomputable def corrAlignedReturns (assets : List String)
    (map : List (String × List Kline)) : List (String × List ℝ) :=
  assets.filterMap fun asset =>
    match map.lookup asset with
    | none => none
    | some klines =>
      let assetRet := returnsMapOf klines
      let aligned := (corrLast30Dates map).filterMap fun date => assetRet.lookup date
      if (corrLast30Dates map).all fun date => (assetRet.lookup date).isSome then
        some (asset, aligned)
      else none

/-- Assets admitted to the correlation matrix (`matrixAssets`). -/
noncomputable def corrMatrixAssets (assets : List String)
    (map : List (String × List Kline)) : List String :=
  (corrAlignedReturns assets map).map Prod.fst

/-- The matrix entries: diagonal pinned to 1, off-diagonal Pearson
correlations of the aligned return vectors. -/
noncomputable def corrMatrixRows (assets : List String)
    (map : List (String × List Kline)) : List (List ℝ) :=
  (List.range (corrMatrixAssets assets map).length).map fun i =>
    (List.range (corrMatrixAssets assets map).length).map fun j =>
      if i = j then 1
      else calculateCorrelation
        (((corrAlignedReturns assets map).lookup
          ((corrMatrixAssets assets map).getD i "")).getD [])
        (((corrAlignedReturns assets map).lookup
          ((corrMatrixAssets assets map).getD j "")).getD [])

/-- The non-reference matrix assets (`alts`). -/
noncomputable def corrAlts (assets : List String)
    (map : List (String × List Kline)) : List String :=
  (corrMatrixAssets assets map).filter fun a => a != "BTC"

/-- Date-keyed return records of every matrix asset (`allAssetReturns`). -/
noncomputable def corrAllAssetReturns (assets : List String)
    (map : List (String × List Kline)) : List (String × List (Int × ℝ)) :=
  (corrMatrixAssets assets map).map fun asset =>
    (asset, returnsMapOf ((map.lookup asset).getD []))

/-- The per-date equal-weighted average-altcoin return used inside
`calcRolling`: sum and count over the alts having a return that date,
0 when none has one. -/
noncomputable def altAvgAt (alts : List String)
    (allR : List (String × List (Int × ℝ))) (d : Int) : ℝ :=
  let acc := alts.foldl (fun sc a =>
    match ((allR.lookup a).getD []).lookup d with
    | some r => (sc.1 + r, sc.2 + 1)
    | none => sc) ((0 : ℝ), (0 : ℕ))
  if 0 < acc.2 then acc.1 / (acc.2 : ℝ) else 0

/-- The trailing-window date slice of `calcRolling`
(`analysisDates.slice(targetIdx - window + 1, targetIdx + 1)`). -/
noncomputable def corrSliceDates (map : List (String × List Kline))
    (targetIdx w : ℕ) : List Int :=
  ((corrAnalysisDates map).drop (targetIdx + 1 - w)).take w

/-- Embeds `calcRolling`: rolling correlation of the reference returns
against the average-altcoin returns over one trailing window. -/
noncomputable def calcRolling (assets : List String)
    (map : List (String × List Kline)) (targetIdx w : ℕ) : ℝ :=
  let sliceDates := corrSliceDates map targetIdx w
  let btcSlice := sliceDates.map fun d =>
    ((((corrAllAssetReturns assets map).lookup "BTC").getD []).lookup d).getD 0
  let altSlice := sliceDates.map fun d =>
    altAvgAt (corrAlts assets map) (corrAllAssetReturns assets map) d
  calculateCorrelation btcSlice altSlice

/-- The rolling-correlation history (`historyPoints`): up to 90 points, one
per recent date with at least 90 days of prior history, oldest first. -/
noncomputable def corrHistory (assets : List String)
    (map : List (String × List Kline)) : List CorrelationPoint :=
  (((List.range 90).takeWhile fun i => i + 91 ≤ (corrAnalysisDates map).length).map
    fun i =>
      let targetIdx := (corrAnalysisDates map).length - 1 - i
      { date := (corrAnalysisDates map).getD targetIdx 0
        corr10 := calcRolling assets map targetIdx 10
        corr30 := calcRolling assets map targetIdx 30
        corr60 := calcRolling assets map targetIdx 60
        corr90 := calcRolling assets map targetIdx 90 : CorrelationPoint }).reverse

/-- Embeds `processCorrelationData`: empty outputs when the reference asset
has no candles, otherwise matrix plus rolling history. -/
noncomputable def processCorrelationData (assets : List String)
    (map : List (String × List Kline)) : CorrelationData :=
  match map.lookup "BTC" with
  | none => ⟨⟨[], []⟩, []⟩
  | some _ =>
    ⟨⟨corrMatrixAssets assets map, corrMatrixRows assets map⟩,
      corrHistory assets map⟩

/-
  Breadth processor (processBreadthMetrics, binanceService lines 476-580).
-/
/-- Reduced per-candle data used by the breadth processor (`assetData`
entries). -/
structure PricePoint where
  close : ℚ
  time : Int
  deriving DecidableEq, Repr

instance : Inhabited PricePoint := ⟨⟨0, 0⟩⟩

/-- One breadth aggregate (types.ts `BreadthPoint`), date as day number. -/
structure BreadthPoint where
  date : Int
  val20 : ℚ
  val50 : ℚ
  val100 : ℚ
  deriving DecidableEq, Repr

/-- Breadth output: share of assets above their SMA, and average range
position, per date. -/
structure BreadthData where
  aboveSma : List BreadthPoint
  rangePosition : List BreadthPoint
  deriving DecidableEq, Repr

/-- The nine per-date accumulators of the asset loop (`countsAboveSma`,
`sumsRangePos`, `countsValid` for p = 20, 50, 100). -/
structure BAcc where
  above20 : ℕ
  above50 : ℕ
  above100 : ℕ
  sum20 : ℚ
  sum50 : ℚ
  sum100 : ℚ
  cnt20 : ℕ
  cnt50 : ℕ
  cnt100 : ℕ
  deriving DecidableEq, Repr

/-- Close/time series per asset (`assetData`). -/
def breadthAssetData (assets : List String) (km : List (String × List Kline)) :
    List (String × List PricePoint) :=
  assets.filterMap fun asset => (km.lookup asset).map fun ks =>
    (asset, ks.map fun k => (⟨k.close, k.closeTime⟩ : PricePoint))

/-- One period's body of the per-asset loop: the SMA comparison and the
optional range-position contribution.  The `±Infinity`-seeded max/min scans
of the source are folds over the (non-empty, since `p ≤ idx`) window. -/
def periodEffect (history : List PricePoint) (idx : ℕ) (currentPrice : ℚ)
    (p : ℕ) : Bool × Option ℚ :=
  if idx < p then (false, none)
  else
    let windowSlice := (history.drop (idx + 1 - p)).take p
    let closes := windowSlice.map PricePoint.close
    let sma := closes.sum / (p : ℚ)
    let mx := closes.foldl max (closes.headD 0)
    let mn := closes.foldl min (closes.headD 0)
    (decide (sma < currentPrice),
      if mn < mx then some (max (currentPrice - mn) 0 / (mx - mn)) else none)

/-- Per-asset step of the first `assets.forEach` loop, updating all nine
accumulators (the three `periods.forEach` iterations unrolled). -/
def breadthStep (assetData : List (String × List PricePoint)) (time : Int)
    (acc : BAcc) (asset : String) : BAcc :=
  match assetData.lookup asset with
  | none => acc
  | some history =>
    let idx := history.findIdx fun h => h.time == time
    if idx = history.length then acc
    else
      let currentPrice := (history.getD idx default).close
      let e20 := periodEffect history idx currentPrice 20
      let e50 := periodEffect history idx currentPrice 50
      let e100 := periodEffect history idx currentPrice 100
      { above20 := acc.above20 + (if e20.1 then 1 else 0)
        above50 := acc.above50 + (if e50.1 then 1 else 0)
        above100 := acc.above100 + (if e100.1 then 1 else 0)
        sum20 := acc.sum20 + e20.2.getD 0
        sum50 := acc.sum50 + e50.2.getD 0
        sum100 := acc.sum100 + e100.2.getD 0
        cnt20 := acc.cnt20 + (if e20.2.isSome then 1 else 0)
        cnt50 := acc.cnt50 + (if e50.2.isSome then 1 else 0)
        cnt100 := acc.cnt100 + (if e100.2.isSome then 1 else 0) }

/-- Per-asset step of the second loop (`activeCount`): an asset counts for
period `p` when its candle for this date was found at index `≥ p`
(`findIndex` yielding `-1` never satisfies `idx >= p`). -/
def activeStep (assetData : List (String × List PricePoint)) (time : Int)
    (acc : ℕ × ℕ × ℕ) (asset : String) : ℕ × ℕ × ℕ :=
  match assetData.lookup asset with
  | none => acc
  | some history =>
    let idx := history.findIdx fun h => h.time == time
    if idx = history.length then acc
    else
      (acc.1 + (if 20 ≤ idx then 1 else 0),
       acc.2.1 + (if 50 ≤ idx then 1 else 0),
       acc.2.2 + (if 100 ≤ idx then 1 else 0))

/-- Both breadth points of one timeline date: the percentage of active
assets above their SMA, and the scaled average range position over the
assets with a valid (non-degenerate) window. -/
def breadthPointsAt (assets : List String)
    (assetData : List (String × List PricePoint)) (time : Int) :
    BreadthPoint × BreadthPoint :=
  let dateStr := dayOf time
  let acc := assets.foldl (breadthStep assetData time) ⟨0, 0, 0, 0, 0, 0, 0, 0, 0⟩
  let active := assets.foldl (activeStep assetData time) (0, 0, 0)
  let getPct := fun (val ac : ℕ) => if 0 < ac then ((val : ℚ) / (ac : ℚ)) * 100 else 0
  let getAvg := fun (val : ℚ) (c : ℕ) => if 0 < c then (val / (c : ℚ)) * 100 else 0
  (⟨dateStr, getPct acc.above20 active.1, getPct acc.above50 active.2.1,
      getPct acc.above100 active.2.2⟩,
   ⟨dateStr, getAvg acc.sum20 acc.cnt20, getAvg acc.sum50 acc.cnt50,
      getAvg acc.sum100 acc.cnt100⟩)

/-- The 500-entry reference timeline (`timeline`), by `closeTime`. -/
def breadthTimeline (km : List (String × List Kline)) : List Int :=
  let btcKlines := (km.lookup "BTC").getD []
  (btcKlines.drop (btcKlines.length - 500)).map Kline.closeTime

/-- Embeds `processBreadthMetrics`: empty series unless the reference asset
has 600 candles, otherwise one aboveSma point and one rangePosition point
per timeline date. -/
def processBreadthMetrics (assets : List String)
    (km : List (String × List Kline)) : BreadthData :=
  let btcKlines := (km.lookup "BTC").getD []
  if btcKlines.length < 600 then ⟨[], []⟩
  else
    let assetData := breadthAssetData assets km
    let points := (breadthTimeline km).map (breadthPointsAt assets assetData)
    ⟨points.map Prod.fst, points.map Prod.snd⟩

/-
  Volatility regime processor (processVolatilityMetrics, binanceService
  lines 183-212), needed to state the run-level degradation claim.
-/
/-- Output row of the volatility processor (types.ts `VolatilityMetric`). -/
structure VolatilityMetric where
  symbol : String
  currentVol : ℝ
  percentile : ℝ

/-- Per-asset body of `processVolatilityMetrics`: needs 50 candles, builds
up to 180 trailing 21-period exponential vols (stopping when history runs
out), ranks the most recent against the history. -/
noncomputable def volatilityMetricFor (map : List (String × List Kline))
    (asset : String) : Option VolatilityMetric :=
  match map.lookup asset with
  | none => none
  | some klines =>
    if klines.length < 50 then none
    else
      let closes := klines.map fun k => (k.close : ℝ)
      let returns := (closes.zip closes.tail).map fun p => Real.log (p.2 / p.1)
      if returns.length < 21 then none
      else
        let volHistory :=
          ((List.range 180).takeWhile fun i => i + 21 ≤ returns.length).map fun i =>
            calculateExponentialVol
              ((returns.drop (returns.length - i - 21)).take 21) 21
        if volHistory.length = 0 then none
        else
          let currentVol := volHistory.getD 0 0
          some ⟨asset, currentVol, calculatePercentile volHistory currentVol false⟩

/-- Embeds `processVolatilityMetrics`. -/
noncomputable def processVolatilityMetrics (assets : List String)
    (map : List (String × List Kline)) : List VolatilityMetric :=
  assets.filterMap (volatilityMetricFor map)

/-
  C2: the per-date rangePosition aggregate of the breadth processor.
  The next definitions name the per-asset contribution and the two
  candidate per-date aggregates: the one the code computes (denominator =
  assets with a valid, non-degenerate window) and the one the
  specification claims (denominator = all assets with p prior candles).
-/
/-- The optional range-position contribution of one asset at one date for
one period: its candle for the date must exist, have `p` predecessors, and
span a non-degenerate window.  This is exactly the quantity the source adds
into `sumsRangePos[p]` (and counts in `countsValid[p]`). -/
def rangeContrib (assetData : List (String × List PricePoint)) (time : Int)
    (p : ℕ) (asset : String) : Option ℚ :=
  match assetData.lookup asset with
  | none => none
  | some history =>
    let idx := history.findIdx fun h => h.time == time
    if idx = history.length then none
    else (periodEffect history idx (history.getD idx default).close p).2

/-- The aggregate the code reports: contributions averaged over the
contributing assets only, scaled to 0-100 (0 when none contributes). -/
def rangePositionValue (assets : List String)
    (assetData : List (String × List PricePoint)) (time : Int) (p : ℕ) : ℚ :=
  let contribs := assets.filterMap (rangeContrib assetData time p)
  if 0 < contribs.length then (contribs.sum / (contribs.length : ℚ)) * 100 else 0

/-- Modelled from the spec: the aggregate the claim describes, with the
denominator counting every asset whose candle for the date exists at index
`≥ p` (the `activeCount` eligibility), not only the contributing ones. -/
def claimedRangePositionValue (assets : List String)
    (assetData : List (String × List PricePoint)) (time : Int) (p : ℕ) : ℚ :=
  let contribs := assets.filterMap (rangeContrib assetData time p)
  let active := assets.countP fun a =>
    match assetData.lookup a with
    | none => false
    | some history =>
      let idx := history.findIdx fun h => h.time == time
      decide (idx ≠ history.length ∧ p ≤ idx)
  if 0 < active then (contribs.sum / (active : ℚ)) * 100 else 0

/-- Candle series with `closeTime i = i` and closes `f i`, used by the
breadth counterexample run. -/
def timedKlines (n : ℕ) (f : ℕ → ℚ) : List Kline :=
  (List.range n).map fun (i : ℕ) => ⟨(i : Int), 0, 0, 0, f i, 0, (i : Int)⟩

def c2BtcClose (i : ℕ) : ℚ := if i = 100 then 2 else 1

def c2AaaClose : ℕ → ℚ := fun _ => 5

def c2Btc : List Kline := timedKlines 600 c2BtcClose

def c2Aaa : List Kline := timedKlines 600 c2AaaClose

def c2Map : List (String × List Kline) := [("BTC", c2Btc), ("AAA", c2Aaa)]

def c2Assets : List String := ["BTC", "AAA"]

/-- Price series with `time i = i` and closes `f i`. -/
def ppSeries (n : ℕ) (f : ℕ → ℚ) : List PricePoint :=
  (List.range n).map fun (i : ℕ) => ⟨f i, (i : Int)⟩

/-
  C3: the average-altcoin series of the rolling correlation history.
-/
/-- Modelled from the spec: the per-date equal-weighted mean the claim
describes — over all non-reference assets of the run that have a return on
the date, regardless of matrix alignment. -/
noncomputable def specAltMean (assets : List String)
    (map : List (String × List Kline)) (d : Int) : ℝ :=
  let vals := (assets.filter fun a => a != "BTC").filterMap fun a =>
    (returnsMapOf ((map.lookup a).getD [])).lookup d
  vals.sum / (vals.length : ℝ)

/-- Constant reference closes for the correlation counterexample run. -/
def c3BtcClose : ℕ → ℚ := fun _ => 1

/-- Altcoin closes for the counterexample: spikes on the last day. -/
def c3A2Close (i : ℕ) : ℚ := if i = 92 then 8 else 1

/-- Candle series with one candle per calendar day. -/
def dayKlines (n : ℕ) (f : ℕ → ℚ) : List Kline :=
  (List.range n).map fun (i : ℕ) =>
    ⟨(i : Int) * 86400000, 0, 0, 0, f i, 0, (i : Int) * 86400000⟩

/-- 93 reference candles, days 0-92. -/
def c3Btc : List Kline := dayKlines 93 c3BtcClose

/-- An altcoin with a hole at day 70 (so it misses one of the last 30
dates and is excluded from the matrix) but a return on day 92. -/
def c3A2 : List Kline :=
  (List.range 93).filterMap fun (i : ℕ) =>
    if i = 70 then none
    else some ⟨(i : Int) * 86400000, 0, 0, 0, c3A2Close i, 0, (i : Int) * 86400000⟩

def c3Map : List (String × List Kline) := [("BTC", c3Btc), ("A2", c3A2)]

def c3Assets : List String := ["BTC", "A2"]

/-
  C1: behaviour of `calculatePercentile` at the dataset maximum and below
  the minimum.
-/
/-- Evaluation of `calculatePercentile` with `absolute = false` on a
non-empty dataset. -/
lemma calculatePercentile_false_eval (data : List ℚ) (v : ℚ) (h : data ≠ []) :
    calculatePercentile data v false =
      ((data.insertionSort (· ≤ ·)).findIdx (fun a => decide (v ≤ a)) : ℚ) /
        (data.length : ℚ) * 100 := by
  have hlen : data.length ≠ 0 := fun h0 => h (List.length_eq_zero.mp h0)
  simp only [calculatePercentile, if_neg hlen, Bool.false_eq_true, if_false]

/-- In an ascending-sorted list whose maximum `v` occurs exactly once, the
first index holding an element `≥ v` is the last index. -/
lemma findIdx_sorted_unique_max (s : List ℚ) (v : ℚ) (hs : s.Sorted (· ≤ ·))
    (hv : v ∈ s) (hmax : ∀ a ∈ s, a ≤ v) (hcount : s.count v = 1) :
    s.findIdx (fun a => decide (v ≤ a)) = s.length - 1 := by
  induction s with
  | nil => cases hv
  | cons a t ih =>
    rw [List.findIdx_cons]
    by_cases hva : v ≤ a
    · have hae : a = v := le_antisymm (hmax a (List.mem_cons_self a t)) hva
      have ht : t = [] := by
        cases t with
        | nil => rfl
        | cons b u =>
          exfalso
          have hb : b = v :=
            le_antisymm (hmax b (by simp)) (hae ▸ List.rel_of_sorted_cons hs b (by simp))
          rw [List.count_cons, List.count_cons, hae, hb] at hcount
          simp at hcount
      subst ht
      simp [hva]
    · have hane : (a == v) = false := by
        apply beq_eq_false_iff_ne.mpr
        intro hav
        exact hva (le_of_eq hav.symm)
      have hvt : v ∈ t := by
        rcases List.mem_cons.mp hv with h | h
        · exact absurd (le_of_eq h) hva
        · exact h
      have hst : t.Sorted (· ≤ ·) := (List.sorted_cons.mp hs).2
      have hmt : ∀ x ∈ t, x ≤ v := fun x hx => hmax x (List.mem_cons_of_mem _ hx)
      have hct : t.count v = 1 := by
        rw [List.count_cons, hane] at hcount
        simpa using hcount
      have ht0 : 1 ≤ t.length := by
        have : t ≠ [] := fun h0 => by rw [h0] at hvt; cases hvt
        exact List.length_pos.mpr this
      rw [decide_eq_false hva]
      simp only [Bool.cond_false]
      rw [ih hst hvt hmt hct]
      simp only [List.length_cons]
      omega

/-- C1 (amended): for a non-empty dataset whose maximum occurs exactly once,
`calculatePercentile` with `useAbsolute = false` at the maximum returns a rank
in `[100 (n-1)/n, 100]`, and at any probe strictly below the minimum
returns 0. -/
theorem calculatePercentile_max_rank (data : List ℚ) (v w : ℚ) (hne : data ≠ []) :
    (v ∈ data → (∀ a ∈ data, a ≤ v) → data.count v = 1 →
      100 * ((data.length : ℚ) - 1) / (data.length : ℚ) ≤ calculatePercentile data v false ∧
      calculatePercentile data v false ≤ 100) ∧
    ((∀ a ∈ data, w < a) → calculatePercentile data w false = 0) := by
  have hlenpos : 0 < data.length := List.length_pos.mpr hne
  have hlenQ : (0 : ℚ) < (data.length : ℚ) := by exact_mod_cast hlenpos
  have hperm := List.perm_insertionSort (· ≤ ·) data
  constructor
  · intro hv hmax hcount
    rw [calculatePercentile_false_eval data v hne]
    have hidx : (data.insertionSort (· ≤ ·)).findIdx (fun a => decide (v ≤ a)) =
        data.length - 1 := by
      rw [← hperm.length_eq]
      exact findIdx_sorted_unique_max _ v
        (List.sorted_insertionSort (· ≤ ·) data)
        ((List.mem_insertionSort (· ≤ ·)).mpr hv)
        (fun a ha => hmax a ((List.mem_insertionSort (· ≤ ·)).mp ha))
        (by rw [hperm.count_eq]; exact hcount)
    rw [hidx, Nat.cast_sub hlenpos, Nat.cast_one]
    constructor
    · exact le_of_eq (by ring)
    · rw [div_mul_eq_mul_div, div_le_iff₀ hlenQ]
      linarith
  · intro hmin
    rw [calculatePercentile_false_eval data w hne]
    have hs0 : data.insertionSort (· ≤ ·) ≠ [] := by
      intro h0
      have := hperm.length_eq
      rw [h0] at this
      simp at this
      exact hne (List.length_eq_zero.mp this.symm)
    obtain ⟨b, u, hbu⟩ := List.exists_cons_of_ne_nil hs0
    have hbmem : b ∈ data := (List.mem_insertionSort (· ≤ ·)).mp (by rw [hbu]; simp)
    have hwb : w ≤ b := le_of_lt (hmin b hbmem)
    rw [hbu, List.findIdx_cons, decide_eq_true hwb]
    simp

/-- C1 (counterexample): the claim as stated fails when the maximum is tied.
On the dataset `[5, 5]` the probe 5 equals the maximum, yet the rank is 0,
below `100 (n-1)/n = 50`. -/
theorem calculatePercentile_max_claim_false :
    ¬ (∀ (data : List ℚ) (v w : ℚ), data ≠ [] →
        (v ∈ data → (∀ a ∈ data, a ≤ v) →
          100 * ((data.length : ℚ) - 1) / (data.length : ℚ) ≤
              calculatePercentile data v false ∧
            calculatePercentile data v false ≤ 100) ∧
        ((∀ a ∈ data, w < a) → calculatePercentile data w false = 0)) := by
  intro h
  have h2 := ((h [5, 5] 5 0 (by decide)).1 (by decide) (by decide)).1
  have heval : calculatePercentile ([5, 5] : List ℚ) 5 false = 0 := by
    norm_num [calculatePercentile, List.insertionSort, List.orderedInsert,
      List.findIdx, List.findIdx.go]
  rw [heval] at h2
  norm_num at h2

/-- C1 (witness): the amended theorem applied to the dataset `[1, 2]`,
probe 2 (its unique maximum) and probe 0 (below its minimum). -/
theorem calculatePercentile_max_rank_witness :
    (100 * (((([1, 2] : List ℚ)).length : ℚ) - 1) / ((([1, 2] : List ℚ)).length : ℚ) ≤
        calculatePercentile ([1, 2] : List ℚ) 2 false ∧
      calculatePercentile ([1, 2] : List ℚ) 2 false ≤ 100) ∧
    calculatePercentile ([1, 2] : List ℚ) 0 false = 0 := by
  refine ⟨(calculatePercentile_max_rank [1, 2] 2 0 (by decide)).1 (by decide) (by decide)
    (by decide), (calculatePercentile_max_rank [1, 2] 2 0 (by decide)).2 (by decide)⟩

/-
  C7 / C8 / C10: algebraic properties of `calculateCorrelation`.
-/
/-- List sum as a `Finset.range` sum over default-valued indexing. -/
lemma list_sum_getD (l : List ℝ) :
    l.sum = ∑ i in Finset.range l.length, l.getD i 0 := by
  induction l with
  | nil => simp
  | cons a t ih =>
    rw [List.sum_cons, List.length_cons, Finset.sum_range_succ', ih]
    simp [add_comm]

/-- Mapped list sum as a `Finset.range` sum over default-valued indexing. -/
lemma list_map_sum_getD (f : ℝ → ℝ) (l : List ℝ) :
    (l.map f).sum = ∑ i in Finset.range l.length, f (l.getD i 0) := by
  induction l with
  | nil => simp
  | cons a t ih =>
    rw [List.map_cons, List.sum_cons, List.length_cons, Finset.sum_range_succ', ih]
    simp [add_comm]

/-- Scaled-centering identity: `n · corrD x` is a sum of squares. -/
lemma corrD_key (x : List ℝ) :
    (x.length : ℝ) * corrD x =
      ∑ i in Finset.range x.length, ((x.length : ℝ) * x.getD i 0 - x.sum) ^ 2 := by
  have hexp : ∀ i ∈ Finset.range x.length,
      ((x.length : ℝ) * x.getD i 0 - x.sum) ^ 2 =
        (x.length : ℝ) ^ 2 * (x.getD i 0 * x.getD i 0) -
          2 * (x.length : ℝ) * x.sum * x.getD i 0 + x.sum ^ 2 := fun i _ => by ring
  rw [Finset.sum_congr rfl hexp, Finset.sum_add_distrib, Finset.sum_sub_distrib,
    ← Finset.mul_sum, ← Finset.mul_sum, Finset.sum_const, Finset.card_range,
    ← list_sum_getD, ← list_map_sum_getD (fun a => a * a) x, corrD]
  push_cast [nsmul_eq_mul]
  ring

/-- The scaled variance numerator is non-negative. -/
lemma corrD_nonneg (x : List ℝ) : 0 ≤ corrD x := by
  rcases Nat.eq_zero_or_pos x.length with h | h
  · have hx : x = [] := List.length_eq_zero.mp h
    simp [corrD, hx]
  · have hn : (0 : ℝ) < (x.length : ℝ) := by exact_mod_cast h
    have hsum : 0 ≤ (x.length : ℝ) * corrD x := by
      rw [corrD_key]
      exact Finset.sum_nonneg fun i _ => sq_nonneg _
    nlinarith

/-- Scaled-centering identity for the correlation numerator. -/
lemma corr_num_key (x y : List ℝ) (h : x.length = y.length) :
    (x.length : ℝ) *
        ((x.length : ℝ) * ((List.range x.length).map fun i => x.getD i 0 * y.getD i 0).sum -
          x.sum * y.sum) =
      ∑ i in Finset.range x.length,
        (((x.length : ℝ) * x.getD i 0 - x.sum) * ((x.length : ℝ) * y.getD i 0 - y.sum)) := by
  have hxy : ((List.range x.length).map fun i => x.getD i 0 * y.getD i 0).sum =
      ∑ i in Finset.range x.length, x.getD i 0 * y.getD i 0 := by
    induction x.length with
    | zero => simp
    | succ n ih => rw [List.range_succ, List.map_append, List.sum_append,
        Finset.sum_range_succ, ih]; simp
  have hexp : ∀ i ∈ Finset.range x.length,
      (((x.length : ℝ) * x.getD i 0 - x.sum) * ((x.length : ℝ) * y.getD i 0 - y.sum)) =
        (x.length : ℝ) ^ 2 * (x.getD i 0 * y.getD i 0) -
          (x.length : ℝ) * y.sum * x.getD i 0 -
          (x.length : ℝ) * x.sum * y.getD i 0 + x.sum * y.sum := fun i _ => by ring
  rw [Finset.sum_congr rfl hexp]
  rw [Finset.sum_add_distrib, Finset.sum_sub_distrib, Finset.sum_sub_distrib,
    ← Finset.mul_sum, ← Finset.mul_sum, ← Finset.mul_sum, Finset.sum_const,
    Finset.card_range, ← list_sum_getD, hxy]
  have hy : ∑ i in Finset.range x.length, y.getD i 0 = y.sum := by
    rw [list_sum_getD y, h]
  rw [hy]
  push_cast [nsmul_eq_mul]
  ring

/-- Cauchy–Schwarz for the correlation numerator against the two scaled
variance numerators. -/
lemma corr_num_sq_le (x y : List ℝ) (h : x.length = y.length) (hn : 0 < x.length) :
    ((x.length : ℝ) * ((List.range x.length).map fun i => x.getD i 0 * y.getD i 0).sum -
        x.sum * y.sum) ^ 2 ≤ corrD x * corrD y := by
  have hcs := Finset.sum_mul_sq_le_sq_mul_sq (Finset.range x.length)
    (fun i => (x.length : ℝ) * x.getD i 0 - x.sum)
    (fun i => (x.length : ℝ) * y.getD i 0 - y.sum)
  rw [← corr_num_key x y h, ← corrD_key x] at hcs
  have hyk : ∑ i in Finset.range x.length, ((x.length : ℝ) * y.getD i 0 - y.sum) ^ 2 =
      (x.length : ℝ) * corrD y := by
    rw [h]
    exact (corrD_key y).symm
  rw [hyk] at hcs
  have hnR : (0 : ℝ) < (x.length : ℝ) := by exact_mod_cast hn
  have hn2 : (0 : ℝ) < (x.length : ℝ) ^ 2 := by positivity
  have e1 : ((x.length : ℝ) *
      ((x.length : ℝ) * ((List.range x.length).map fun i => x.getD i 0 * y.getD i 0).sum -
        x.sum * y.sum)) ^ 2 =
      (x.length : ℝ) ^ 2 *
        ((x.length : ℝ) * ((List.range x.length).map fun i => x.getD i 0 * y.getD i 0).sum -
          x.sum * y.sum) ^ 2 := by ring
  have e2 : (x.length : ℝ) * corrD x * ((x.length : ℝ) * corrD y) =
      (x.length : ℝ) ^ 2 * (corrD x * corrD y) := by ring
  rw [e1, e2] at hcs
  exact le_of_mul_le_mul_left hcs hn2

/-- Sum of a mapped `List.range` as a `Finset.range` sum. -/
lemma range_map_sum (n : ℕ) (f : ℕ → ℝ) :
    ((List.range n).map f).sum = ∑ i in Finset.range n, f i := by
  induction n with
  | zero => simp
  | succ n ih =>
    rw [List.range_succ, List.map_append, List.sum_append, Finset.sum_range_succ, ih]
    simp

/-- Evaluation of `calculateCorrelation` past its guard clauses. -/
lemma calculateCorrelation_eval (x y : List ℝ) (hlen : x.length = y.length)
    (h0 : x.length ≠ 0) :
    calculateCorrelation x y =
      if Real.sqrt (corrD x * corrD y) = 0 then 0
      else ((x.length : ℝ) *
          ((List.range x.length).map fun i => x.getD i 0 * y.getD i 0).sum -
          x.sum * y.sum) / Real.sqrt (corrD x * corrD y) := by
  have hguard : ¬(x.length ≠ y.length ∨ x.length = 0) := by
    push_neg
    exact ⟨hlen, h0⟩
  simp only [calculateCorrelation, if_neg hguard]
  have hDx : ((x.length : ℝ) * (x.map fun xi => xi * xi).sum - x.sum * x.sum) = corrD x := rfl
  have hDy : ((x.length : ℝ) * (y.map fun yi => yi * yi).sum - y.sum * y.sum) = corrD y := by
    rw [corrD, hlen]
  rw [hDx, hDy]

/-- C10: `calculateCorrelation` always lies in `[-1, 1]`, in every guard and
fallback branch and in the generic branch by Cauchy–Schwarz. -/
theorem calculateCorrelation_bounded (x y : List ℝ) :
    -1 ≤ calculateCorrelation x y ∧ calculateCorrelation x y ≤ 1 := by
  by_cases hg : x.length ≠ y.length ∨ x.length = 0
  · simp only [calculateCorrelation, if_pos hg]
    norm_num
  · push_neg at hg
    obtain ⟨hlen, h0⟩ := hg
    rw [calculateCorrelation_eval x y hlen h0]
    by_cases hz : Real.sqrt (corrD x * corrD y) = 0
    · rw [if_pos hz]
      norm_num
    · rw [if_neg hz]
      have hDxy : 0 ≤ corrD x * corrD y := mul_nonneg (corrD_nonneg x) (corrD_nonneg y)
      have hdpos : 0 < Real.sqrt (corrD x * corrD y) :=
        lt_of_le_of_ne (Real.sqrt_nonneg _) (Ne.symm hz)
      have hsq : Real.sqrt (corrD x * corrD y) ^ 2 = corrD x * corrD y := Real.sq_sqrt hDxy
      have hnsq := corr_num_sq_le x y hlen (Nat.pos_of_ne_zero h0)
      have habs : |(x.length : ℝ) *
          ((List.range x.length).map fun i => x.getD i 0 * y.getD i 0).sum -
          x.sum * y.sum| ≤ Real.sqrt (corrD x * corrD y) := by
        rw [← Real.sqrt_sq_eq_abs]
        exact Real.sqrt_le_sqrt hnsq
      obtain ⟨habs1, habs2⟩ := abs_le.mp habs
      constructor
      · rw [le_div_iff₀ hdpos]
        linarith
      · rw [div_le_one hdpos]
        exact habs2

/-- C7: correlation of a non-constant series with itself is 1, and
correlation is symmetric in its two arguments for equal-length series. -/
theorem calculateCorrelation_self_symm :
    (∀ x : List ℝ, (∃ a ∈ x, ∃ b ∈ x, a ≠ b) → calculateCorrelation x x = 1) ∧
    (∀ x y : List ℝ, x.length = y.length →
      calculateCorrelation x y = calculateCorrelation y x) := by
  constructor
  · rintro x ⟨a, ha, b, hb, hab⟩
    have h0 : x.length ≠ 0 := by
      intro h
      rw [List.length_eq_zero.mp h] at ha
      cases ha
    have hnR : (0 : ℝ) < (x.length : ℝ) := by
      exact_mod_cast Nat.pos_of_ne_zero h0
    have hQ : ((List.range x.length).map fun i => x.getD i 0 * x.getD i 0).sum =
        (x.map fun xi => xi * xi).sum := by
      rw [range_map_sum, list_map_sum_getD (fun a => a * a) x]
    have hDpos : 0 < corrD x := by
      rcases lt_or_eq_of_le (corrD_nonneg x) with h | h
      · exact h
      · exfalso
        have hkey := corrD_key x
        rw [← h, mul_zero] at hkey
        have hz := (Finset.sum_eq_zero_iff_of_nonneg
          (fun i _ => sq_nonneg ((x.length : ℝ) * x.getD i 0 - x.sum))).mp hkey.symm
        have hconst : ∀ i, i < x.length → x.getD i 0 = x.sum / (x.length : ℝ) := by
          intro i hi
          have h2 := hz i (Finset.mem_range.mpr hi)
          have h3 : (x.length : ℝ) * x.getD i 0 - x.sum = 0 := by
            exact pow_eq_zero_iff (by norm_num) |>.mp h2
          rw [List.getD_eq_getElem x 0 hi] at h3
          field_simp
          linarith
        obtain ⟨ia, hia, hga⟩ := List.getElem_of_mem ha
        obtain ⟨ib, hib, hgb⟩ := List.getElem_of_mem hb
        have hda : x.getD ia 0 = a := by rw [List.getD_eq_getElem x 0 hia, hga]
        have hdb : x.getD ib 0 = b := by rw [List.getD_eq_getElem x 0 hib, hgb]
        exact hab (by rw [← hda, ← hdb, hconst ia hia, hconst ib hib])
    rw [calculateCorrelation_eval x x rfl h0]
    have hnum : (x.length : ℝ) *
        ((List.range x.length).map fun i => x.getD i 0 * x.getD i 0).sum -
        x.sum * x.sum = corrD x := by
      rw [hQ, corrD]
    have hden : Real.sqrt (corrD x * corrD x) = corrD x :=
      Real.sqrt_mul_self (corrD_nonneg x)
    rw [hden, if_neg (ne_of_gt hDpos), hnum]
    exact div_self (ne_of_gt hDpos)
  · intro x y hlen
    by_cases h0 : x.length = 0
    · have hy0 : y.length = 0 := hlen ▸ h0
      simp only [calculateCorrelation]
      rw [if_pos (Or.inr h0), if_pos (Or.inr hy0)]
    · rw [calculateCorrelation_eval x y hlen h0,
        calculateCorrelation_eval y x hlen.symm (fun h => h0 (hlen.trans h)),
        ← hlen, mul_comm (corrD y) (corrD x), mul_comm y.sum x.sum,
        show ((List.range x.length).map fun i => y.getD i 0 * x.getD i 0).sum =
            ((List.range x.length).map fun i => x.getD i 0 * y.getD i 0).sum from by
          rw [range_map_sum, range_map_sum]
          exact Finset.sum_congr rfl fun i _ => mul_comm _ _]

/-- C7 (witness): self-correlation 1 on the non-constant series `[0, 1]`,
and symmetry at `[1, 2]`, `[5, 9]`. -/
theorem calculateCorrelation_self_symm_witness :
    calculateCorrelation [0, 1] [0, 1] = 1 ∧
    calculateCorrelation [1, 2] [5, 9] = calculateCorrelation [5, 9] [1, 2] :=
  ⟨calculateCorrelation_self_symm.1 [0, 1] ⟨0, by simp, 1, by simp, by norm_num⟩,
   calculateCorrelation_self_symm.2 [1, 2] [5, 9] rfl⟩

/-- C8: `calculateCorrelation` returns the fallback 0 when either input is
empty, the lengths differ, or the product of the two scaled variance terms
under the square root is 0 (as for a constant series). -/
theorem calculateCorrelation_degenerate_zero (x y : List ℝ)
    (h : x.length = 0 ∨ x.length ≠ y.length ∨
      ((x.length : ℝ) * (x.map fun xi => xi * xi).sum - x.sum * x.sum) *
        ((x.length : ℝ) * (y.map fun yi => yi * yi).sum - y.sum * y.sum) = 0) :
    calculateCorrelation x y = 0 := by
  by_cases hg : x.length ≠ y.length ∨ x.length = 0
  · simp only [calculateCorrelation, if_pos hg]
  · push_neg at hg
    obtain ⟨hlen, h0⟩ := hg
    rcases h with h | h | h
    · exact absurd h h0
    · exact absurd hlen h
    · have hguard : ¬(x.length ≠ y.length ∨ x.length = 0) := by
        push_neg
        exact ⟨hlen, h0⟩
      simp only [calculateCorrelation, if_neg hguard]
      rw [h, Real.sqrt_zero]
      simp

/-- C8 (witness): the constant series `[1, 1]` against `[2, 3]` makes the
variance product 0, and the result is the fallback 0. -/
theorem calculateCorrelation_degenerate_zero_witness :
    calculateCorrelation [1, 1] [2, 3] = 0 :=
  calculateCorrelation_degenerate_zero [1, 1] [2, 3]
    (Or.inr (Or.inr (by norm_num)))

/-
  C9: `calculateExponentialVol` guard and sign.
-/
/-- C9: `calculateExponentialVol` returns 0 when fewer returns than the
window size are supplied, and is non-negative whenever the window is
covered. -/
theorem calculateExponentialVol_guard_nonneg (returns : List ℝ) (windowSize : ℕ) :
    (returns.length < windowSize → calculateExponentialVol returns windowSize = 0) ∧
    (windowSize ≤ returns.length → 0 ≤ calculateExponentialVol returns windowSize) := by
  constructor
  · intro h
    simp only [calculateExponentialVol, if_pos h]
  · intro h
    simp only [calculateExponentialVol, if_neg (Nat.not_lt.mpr h)]
    exact Real.sqrt_nonneg _

/-- C9 (witness): the guard at `[1]` with window 2, and non-negativity at
`[1, 2]` with window 2. -/
theorem calculateExponentialVol_guard_nonneg_witness :
    calculateExponentialVol [1] 2 = 0 ∧ 0 ≤ calculateExponentialVol [1, 2] 2 :=
  ⟨(calculateExponentialVol_guard_nonneg [1] 2).1 (by norm_num),
   (calculateExponentialVol_guard_nonneg [1, 2] 2).2 (by norm_num)⟩

/-- C5: the momentum universe (top 25) and the mean-reversion universe
(bottom 25 with top-25 members removed) never share a symbol, for any
asset list and any candle data. -/
theorem factor_universes_disjoint (assets : List String)
    (klinesMap : List (String × List Kline)) (s : String)
    (hs : s ∈ (processFactorUniverses assets klinesMap).2) :
    s ∉ (processFactorUniverses assets klinesMap).1 := by
  simp only [processFactorUniverses] at hs ⊢
  rcases List.mem_filter.mp hs with ⟨_, hcon⟩
  intro hmem
  rw [Bool.not_eq_true'] at hcon
  exact Bool.eq_false_iff.mp hcon (List.elem_eq_true_of_mem hmem)

/-- C5 (witness): on a 26-asset universe the mean-reversion universe is
`["A26"]`, and the theorem shows that member is not in the momentum
universe. -/
theorem factor_universes_disjoint_witness :
    "A26" ∉ (processFactorUniverses c5Assets c5Map).1 :=
  factor_universes_disjoint c5Assets c5Map "A26" (by
    norm_num [processFactorUniverses, c5Assets, c5Map, simpleKline,
      List.insertionSort, List.orderedInsert, List.sum_replicate]
    decide)

/-- A produced volume metric always carries the symbol it was computed
for. -/
lemma volumeMetricFor_symbol (map : List (String × List Kline)) (a : String)
    (m : VolumeMetric) (h : volumeMetricFor map a = some m) : m.symbol = a := by
  rcases hcase : map.lookup a with _ | klines
  · simp only [volumeMetricFor, hcase] at h
    cases h
  · simp only [volumeMetricFor, hcase] at h
    by_cases h90 : klines.length < 90
    · rw [if_pos h90] at h
      cases h
    · rw [if_neg h90] at h
      injection h with h'
      rw [← h']

/-- C6: an asset with exactly 89 candles is absent from the volume metrics
(threshold ≥ 90) but present in the funding metrics when it has at least
one funding observation in the 90-day window. -/
theorem asset89_excluded_volume_included_funding
    (assets : List String) (klinesMap : List (String × List Kline))
    (fundingMap : List (String × List FundingRate)) (now : Int) (asset : String)
    (klines : List Kline) (rates : List FundingRate)
    (hmem : asset ∈ assets)
    (hk : klinesMap.lookup asset = some klines) (h89 : klines.length = 89)
    (hf : fundingMap.lookup asset = some rates)
    (hrecent : (rates.filter fun r => now - r.fundingTime ≤ ninetyDaysMs).length ≠ 0) :
    asset ∉ (processVolumeMetrics assets klinesMap).map VolumeMetric.symbol ∧
    asset ∈ (processFundingMetrics assets fundingMap now).map FundingMetric.symbol := by
  constructor
  · intro hin
    obtain ⟨m, hm, hsym⟩ := List.mem_map.mp hin
    obtain ⟨a, _, hfa⟩ := List.mem_filterMap.mp hm
    have hsa : m.symbol = a := volumeMetricFor_symbol _ _ _ hfa
    rw [hsa] at hsym
    subst hsym
    simp only [volumeMetricFor, hk] at hfa
    rw [if_pos (by rw [h89]; norm_num)] at hfa
    cases hfa
  · have hr0 : rates.length ≠ 0 := by
      intro h0
      rw [List.length_eq_zero.mp h0] at hrecent
      simp at hrecent
    have hsome : ∃ m, fundingMetricFor fundingMap now asset = some m ∧
        m.symbol = asset := by
      simp only [fundingMetricFor, hf, if_neg hr0, if_neg hrecent]
      exact ⟨_, rfl, rfl⟩
    obtain ⟨m, hm, hsym⟩ := hsome
    exact List.mem_map.mpr ⟨m, List.mem_filterMap.mpr ⟨asset, hmem, hm⟩, hsym⟩

/-- C6 (witness): a run over the single asset "AAA" holding 89 candles and
one fresh funding print. -/
theorem asset89_excluded_volume_included_funding_witness :
    "AAA" ∉ (processVolumeMetrics ["AAA"] [("AAA", c6Klines)]).map VolumeMetric.symbol ∧
    "AAA" ∈ (processFundingMetrics ["AAA"] [("AAA", c6Funding)] 0).map
      FundingMetric.symbol :=
  asset89_excluded_volume_included_funding ["AAA"] [("AAA", c6Klines)]
    [("AAA", c6Funding)] 0 "AAA" c6Klines c6Funding
    (by decide) (by decide) (by decide) (by decide) (by decide)

/-
  C4: graceful degradation when the reference asset has no candle series.
-/
/-- C4: with no fetched reference series, the correlation processor returns
an empty matrix and history and the breadth processor two empty series,
while the funding, volatility and volume processors are functions of the
remaining assets' data alone: replacing data outside the asset list (such
as reference-asset data) never changes their output.  All processors are
total functions — no failure path exists. -/
theorem btc_missing_graceful (assets : List String)
    (km : List (String × List Kline)) (fm : List (String × List FundingRate))
    (now : Int) (hbtc : km.lookup "BTC" = none) :
    processCorrelationData assets km = ⟨⟨[], []⟩, []⟩ ∧
    processBreadthMetrics assets km = ⟨[], []⟩ ∧
    (∀ fm', (∀ a ∈ assets, fm'.lookup a = fm.lookup a) →
      processFundingMetrics assets fm' now = processFundingMetrics assets fm now) ∧
    (∀ km', (∀ a ∈ assets, km'.lookup a = km.lookup a) →
      processVolatilityMetrics assets km' = processVolatilityMetrics assets km ∧
      processVolumeMetrics assets km' = processVolumeMetrics assets km) := by
  refine ⟨?_, ?_, ?_, ?_⟩
  · simp only [processCorrelationData, hbtc]
  · simp [processBreadthMetrics, hbtc]
  · intro fm' hagree
    exact List.filterMap_congr fun a ha => by
      simp only [fundingMetricFor, hagree a ha]
  · intro km' hagree
    constructor
    · exact List.filterMap_congr fun a ha => by
        simp only [volatilityMetricFor, hagree a ha]
    · exact List.filterMap_congr fun a ha => by
        simp only [volumeMetricFor, hagree a ha]

/-- C4 (witness): a run whose map holds only "ETH" with an empty series;
adding reference-asset data to the funding or candle maps leaves the
funding, volatility and volume outputs unchanged. -/
theorem btc_missing_graceful_witness :
    processCorrelationData ["ETH"] [("ETH", [])] = ⟨⟨[], []⟩, []⟩ ∧
    processBreadthMetrics ["ETH"] [("ETH", [])] = ⟨[], []⟩ ∧
    processFundingMetrics ["ETH"] [("BTC", c6Funding)] 0 =
      processFundingMetrics ["ETH"] [] 0 ∧
    processVolatilityMetrics ["ETH"] [("ETH", []), ("BTC", c6Klines)] =
      processVolatilityMetrics ["ETH"] [("ETH", [])] ∧
    processVolumeMetrics ["ETH"] [("ETH", []), ("BTC", c6Klines)] =
      processVolumeMetrics ["ETH"] [("ETH", [])] := by
  have h := btc_missing_graceful ["ETH"] [("ETH", [])] [] 0 (by decide)
  refine ⟨h.1, h.2.1, h.2.2.1 [("BTC", c6Funding)] ?_, h.2.2.2 [("ETH", []), ("BTC", c6Klines)] ?_⟩
  · intro a ha
    have : a = "ETH" := by simpa using ha
    subst this
    decide
  · intro a ha
    have : a = "ETH" := by simpa using ha
    subst this
    decide

lemma timedKlines_pp (n : ℕ) (f : ℕ → ℚ) :
    (timedKlines n f).map (fun k => (⟨k.close, k.closeTime⟩ : PricePoint)) =
      ppSeries n f := by
  simp [timedKlines, ppSeries, List.map_map]

lemma ppSeries_length (n : ℕ) (f : ℕ → ℚ) : (ppSeries n f).length = n := by
  simp [ppSeries]

lemma findIdx_time_range' (g : ℕ → PricePoint) (hg : ∀ i, (g i).time = (i : Int)) :
    ∀ (n s t : ℕ), s ≤ t → t < s + n →
      (((List.range' s n).map g).findIdx fun h => h.time == (t : Int)) = t - s := by
  intro n
  induction n with
  | zero => intro s t h1 h2; omega
  | succ n ih =>
    intro s t h1 h2
    rw [List.range'_succ, List.map_cons, List.findIdx_cons]
    by_cases hst : s = t
    · subst hst
      simp [hg]
    · have hbeq : ((g s).time == (t : Int)) = false := by
        rw [hg]
        simp
        omega
      rw [hbeq]
      simp only [Bool.cond_false]
      rw [ih (s + 1) t (by omega) (by omega)]
      omega

lemma ppSeries_findIdx (n t : ℕ) (f : ℕ → ℚ) (ht : t < n) :
    ((ppSeries n f).findIdx fun h => h.time == (t : Int)) = t := by
  have := findIdx_time_range' (fun i => (⟨f i, (i : Int)⟩ : PricePoint))
    (fun i => rfl) n 0 t (Nat.zero_le t) (by omega)
  rw [ppSeries, List.range_eq_range']
  simpa using this

lemma ppSeries_getD (n i : ℕ) (f : ℕ → ℚ) (h : i < n) :
    (ppSeries n f).getD i default = ⟨f i, (i : Int)⟩ := by
  rw [List.getD_eq_getElem?_getD, ppSeries, List.getElem?_map, List.getElem?_range h]
  rfl

lemma ppSeries_window (n a p : ℕ) (f : ℕ → ℚ) (h : a + p ≤ n) :
    (((ppSeries n f).drop a).take p).map PricePoint.close = (List.range' a p).map f := by
  apply List.ext_getElem?
  intro i
  rw [List.getElem?_map, List.getElem?_take, List.getElem?_map]
  by_cases hip : i < p
  · rw [if_pos hip, List.getElem?_drop, ppSeries, List.getElem?_map,
      List.getElem?_range (show a + i < n by omega),
      List.getElem?_range' a 1 (show i < p by omega)]
    simp
  · rw [if_neg hip]
    rw [List.getElem?_eq_none (by simp; omega)]
    rfl

lemma periodEffect_ppSeries (n idx p : ℕ) (f : ℕ → ℚ) (c : ℚ)
    (hp : p ≤ idx) (hn : idx < n) :
    periodEffect (ppSeries n f) idx c p =
      ((fun closes => (decide (closes.sum / (p : ℚ) < c),
        if closes.foldl min (closes.headD 0) < closes.foldl max (closes.headD 0) then
          some (max (c - closes.foldl min (closes.headD 0)) 0 /
            (closes.foldl max (closes.headD 0) - closes.foldl min (closes.headD 0)))
        else none)) ((List.range' (idx + 1 - p) p).map f)) := by
  simp only [periodEffect, if_neg (Nat.not_lt.mpr hp)]
  rw [ppSeries_window n (idx + 1 - p) p f (by omega)]

lemma foldl_idem_replicate (q : ℚ → ℚ → ℚ) (hq : ∀ x, q x x = x) (p : ℕ) (c : ℚ) :
    (List.replicate p c).foldl q c = c := by
  induction p with
  | zero => rfl
  | succ p ih => rw [List.replicate_succ, List.foldl_cons, hq]; exact ih

lemma headD_replicate (p : ℕ) (c d : ℚ) (hp : 0 < p) :
    (List.replicate p c).headD d = c := by
  cases p with
  | zero => omega
  | succ p => rfl

lemma periodEffect_const_none (n idx p : ℕ) (c c2 : ℚ) (hp : p ≤ idx)
    (hn : idx < n) (hp0 : 0 < p) :
    (periodEffect (ppSeries n (fun _ => c)) idx c2 p).2 = none := by
  rw [periodEffect_ppSeries n idx p (fun _ => c) c2 hp hn]
  have hconst : (List.range' (idx + 1 - p) p).map (fun _ => c) = List.replicate p c := by
    rw [List.map_const']
    simp
  simp only [hconst, headD_replicate p c 0 hp0,
    foldl_idem_replicate min (fun x => min_self x) p c,
    foldl_idem_replicate max (fun x => max_self x) p c]
  simp

lemma c2_pe20 : (periodEffect (ppSeries 600 c2BtcClose) 100 2 20).2 = some 1 := by
  rw [periodEffect_ppSeries 600 100 20 c2BtcClose 2 (by norm_num) (by norm_num)]
  have h : List.range' 81 20 =
      [81, 82, 83, 84, 85, 86, 87, 88, 89, 90,
       91, 92, 93, 94, 95, 96, 97, 98, 99, 100] := by decide
  rw [show (100 : ℕ) + 1 - 20 = 81 from rfl, h]
  norm_num [c2BtcClose]

lemma c2_pe100 : (periodEffect (ppSeries 600 c2BtcClose) 100 2 100).2 = some 1 := by
  rw [periodEffect_ppSeries 600 100 100 c2BtcClose 2 (by norm_num) (by norm_num)]
  have h : List.range' 1 100 =
      [1, 2, 3, 4, 5, 6, 7, 8, 9, 10,
       11, 12, 13, 14, 15, 16, 17, 18, 19, 20,
       21, 22, 23, 24, 25, 26, 27, 28, 29, 30,
       31, 32, 33, 34, 35, 36, 37, 38, 39, 40,
       41, 42, 43, 44, 45, 46, 47, 48, 49, 50,
       51, 52, 53, 54, 55, 56, 57, 58, 59, 60,
       61, 62, 63, 64, 65, 66, 67, 68, 69, 70,
       71, 72, 73, 74, 75, 76, 77, 78, 79, 80,
       81, 82, 83, 84, 85, 86, 87, 88, 89, 90,
       91, 92, 93, 94, 95, 96, 97, 98, 99, 100] := by decide
  rw [show (100 : ℕ) + 1 - 100 = 1 from rfl, h]
  norm_num [c2BtcClose]

lemma c2_pe50 : (periodEffect (ppSeries 600 c2BtcClose) 100 2 50).2 = some 1 := by
  rw [periodEffect_ppSeries 600 100 50 c2BtcClose 2 (by norm_num) (by norm_num)]
  have h : List.range' 51 50 =
      [51, 52, 53, 54, 55, 56, 57, 58, 59, 60,
       61, 62, 63, 64, 65, 66, 67, 68, 69, 70,
       71, 72, 73, 74, 75, 76, 77, 78, 79, 80,
       81, 82, 83, 84, 85, 86, 87, 88, 89, 90,
       91, 92, 93, 94, 95, 96, 97, 98, 99, 100] := by decide
  rw [show (100 : ℕ) + 1 - 50 = 51 from rfl, h]
  norm_num [c2BtcClose]

lemma breadthStep_fields (assetData : List (String × List PricePoint)) (time : Int)
    (acc : BAcc) (a : String) :
    ((breadthStep assetData time acc a).sum20 =
        acc.sum20 + (rangeContrib assetData time 20 a).getD 0) ∧
    ((breadthStep assetData time acc a).cnt20 =
        acc.cnt20 + if (rangeContrib assetData time 20 a).isSome then 1 else 0) ∧
    ((breadthStep assetData time acc a).sum50 =
        acc.sum50 + (rangeContrib assetData time 50 a).getD 0) ∧
    ((breadthStep assetData time acc a).cnt50 =
        acc.cnt50 + if (rangeContrib assetData time 50 a).isSome then 1 else 0) ∧
    ((breadthStep assetData time acc a).sum100 =
        acc.sum100 + (rangeContrib assetData time 100 a).getD 0) ∧
    ((breadthStep assetData time acc a).cnt100 =
        acc.cnt100 + if (rangeContrib assetData time 100 a).isSome then 1 else 0) := by
  cases h : assetData.lookup a with
  | none => simp [breadthStep, rangeContrib, h]
  | some history =>
    simp only [breadthStep, rangeContrib, h]
    by_cases hidx : (history.findIdx fun hh => hh.time == time) = history.length
    · simp [hidx]
    · simp [hidx]

lemma breadth_fold (assetData : List (String × List PricePoint)) (time : Int)
    (l : List String) : ∀ acc : BAcc,
    ((l.foldl (breadthStep assetData time) acc).sum20 =
        acc.sum20 + (l.filterMap (rangeContrib assetData time 20)).sum) ∧
    ((l.foldl (breadthStep assetData time) acc).cnt20 =
        acc.cnt20 + (l.filterMap (rangeContrib assetData time 20)).length) ∧
    ((l.foldl (breadthStep assetData time) acc).sum50 =
        acc.sum50 + (l.filterMap (rangeContrib assetData time 50)).sum) ∧
    ((l.foldl (breadthStep assetData time) acc).cnt50 =
        acc.cnt50 + (l.filterMap (rangeContrib assetData time 50)).length) ∧
    ((l.foldl (breadthStep assetData time) acc).sum100 =
        acc.sum100 + (l.filterMap (rangeContrib assetData time 100)).sum) ∧
    ((l.foldl (breadthStep assetData time) acc).cnt100 =
        acc.cnt100 + (l.filterMap (rangeContrib assetData time 100)).length) := by
  induction l with
  | nil => intro acc; simp
  | cons a t ih =>
    intro acc
    rw [List.foldl_cons]
    obtain ⟨h1, h2, h3, h4, h5, h6⟩ := ih (breadthStep assetData time acc a)
    obtain ⟨f1, f2, f3, f4, f5, f6⟩ := breadthStep_fields assetData time acc a
    refine ⟨?_, ?_, ?_, ?_, ?_, ?_⟩
    · rw [h1, f1]
      cases hc : rangeContrib assetData time 20 a <;>
        simp [hc, List.filterMap_cons, add_assoc]
    · rw [h2, f2]
      cases hc : rangeContrib assetData time 20 a <;>
        (simp [hc, List.filterMap_cons]; try omega)
    · rw [h3, f3]
      cases hc : rangeContrib assetData time 50 a <;>
        simp [hc, List.filterMap_cons, add_assoc]
    · rw [h4, f4]
      cases hc : rangeContrib assetData time 50 a <;>
        (simp [hc, List.filterMap_cons]; try omega)
    · rw [h5, f5]
      cases hc : rangeContrib assetData time 100 a <;>
        simp [hc, List.filterMap_cons, add_assoc]
    · rw [h6, f6]
      cases hc : rangeContrib assetData time 100 a <;>
        (simp [hc, List.filterMap_cons]; try omega)

lemma breadth_rangePosition_get (assets : List String)
    (km : List (String × List Kline)) (i : ℕ) (t : Int)
    (ht : (breadthTimeline km)[i]? = some t)
    (hlen : ¬((km.lookup "BTC").getD []).length < 600) :
    (processBreadthMetrics assets km).rangePosition[i]? =
      some ⟨dayOf t,
        rangePositionValue assets (breadthAssetData assets km) t 20,
        rangePositionValue assets (breadthAssetData assets km) t 50,
        rangePositionValue assets (breadthAssetData assets km) t 100⟩ := by
  simp only [processBreadthMetrics, if_neg hlen]
  rw [List.getElem?_map, List.getElem?_map, ht]
  simp only [Option.map_some']
  refine congrArg some ?_
  obtain ⟨h1, h2, h3, h4, h5, h6⟩ :=
    breadth_fold (breadthAssetData assets km) t assets ⟨0, 0, 0, 0, 0, 0, 0, 0, 0⟩
  simp only [breadthPointsAt, h1, h2, h3, h4, h5, h6]
  simp [rangePositionValue]

lemma c2_AD : breadthAssetData c2Assets c2Map =
    [("BTC", ppSeries 600 c2BtcClose), ("AAA", ppSeries 600 c2AaaClose)] := by
  decide

/-- General evaluation of `rangeContrib` on an indexed price series. -/
lemma rangeContrib_ppSeries (assetData : List (String × List PricePoint))
    (a : String) (n t p : ℕ) (f : ℕ → ℚ)
    (ha : assetData.lookup a = some (ppSeries n f)) (htn : t < n) :
    rangeContrib assetData ((t : ℕ) : Int) p a =
      (periodEffect (ppSeries n f) t (f t) p).2 := by
  simp only [rangeContrib, ha]
  rw [ppSeries_findIdx n t f htn]
  rw [if_neg (by rw [ppSeries_length]; omega)]
  rw [ppSeries_getD n t f htn]

lemma c2_contrib_btc (p : ℕ) :
    rangeContrib [("BTC", ppSeries 600 c2BtcClose), ("AAA", ppSeries 600 c2AaaClose)]
      (100 : Int) p "BTC" = (periodEffect (ppSeries 600 c2BtcClose) 100 2 p).2 := by
  have := rangeContrib_ppSeries
    [("BTC", ppSeries 600 c2BtcClose), ("AAA", ppSeries 600 c2AaaClose)]
    "BTC" 600 100 p c2BtcClose rfl (by norm_num)
  push_cast at this
  rw [this]
  norm_num [c2BtcClose]

lemma c2_contrib_aaa (p : ℕ) (hp : p ≤ 100) (h0 : 0 < p) :
    rangeContrib [("BTC", ppSeries 600 c2BtcClose), ("AAA", ppSeries 600 c2AaaClose)]
      (100 : Int) p "AAA" = none := by
  have := rangeContrib_ppSeries
    [("BTC", ppSeries 600 c2BtcClose), ("AAA", ppSeries 600 c2AaaClose)]
    "AAA" 600 100 p c2AaaClose rfl (by norm_num)
  push_cast at this
  rw [this]
  exact periodEffect_const_none 600 100 p 5 (c2AaaClose 100) hp (by norm_num) h0

lemma c2_findIdx_btc :
    ((ppSeries 600 c2BtcClose).findIdx fun h => h.time == (100 : Int)) = 100 := by
  have := ppSeries_findIdx 600 100 c2BtcClose (by norm_num)
  push_cast at this
  exact this

lemma c2_findIdx_aaa :
    ((ppSeries 600 c2AaaClose).findIdx fun h => h.time == (100 : Int)) = 100 := by
  have := ppSeries_findIdx 600 100 c2AaaClose (by norm_num)
  push_cast at this
  exact this

lemma c2_val (p : ℕ) (hp : p ≤ 100) (h0 : 0 < p)
    (hpe : (periodEffect (ppSeries 600 c2BtcClose) 100 2 p).2 = some 1) :
    rangePositionValue c2Assets
      [("BTC", ppSeries 600 c2BtcClose), ("AAA", ppSeries 600 c2AaaClose)]
      (100 : Int) p = 100 := by
  unfold rangePositionValue
  simp only [c2Assets, List.filterMap_cons, List.filterMap_nil,
    c2_contrib_btc p, c2_contrib_aaa p hp h0, hpe]
  norm_num

lemma c2_rangePosition_head :
    (processBreadthMetrics c2Assets c2Map).rangePosition[0]? =
      some ⟨0, 100, 100, 100⟩ := by
  rw [breadth_rangePosition_get c2Assets c2Map 0 100 (by decide) (by decide)]
  rw [c2_AD, c2_val 20 (by norm_num) (by norm_num) c2_pe20,
    c2_val 50 (by norm_num) (by norm_num) c2_pe50,
    c2_val 100 (by norm_num) (by norm_num) c2_pe100]
  rfl

lemma c2_claimed20 :
    claimedRangePositionValue c2Assets (breadthAssetData c2Assets c2Map)
      (100 : Int) 20 = 50 := by
  rw [c2_AD]
  unfold claimedRangePositionValue
  have hb : List.lookup "BTC"
      [("BTC", ppSeries 600 c2BtcClose), ("AAA", ppSeries 600 c2AaaClose)] =
      some (ppSeries 600 c2BtcClose) := rfl
  have ha : List.lookup "AAA"
      [("BTC", ppSeries 600 c2BtcClose), ("AAA", ppSeries 600 c2AaaClose)] =
      some (ppSeries 600 c2AaaClose) := rfl
  simp only [c2Assets, List.filterMap_cons, List.filterMap_nil,
    c2_contrib_btc 20, c2_contrib_aaa 20 (by norm_num) (by norm_num), c2_pe20,
    List.countP_cons, List.countP_nil, hb, ha, c2_findIdx_btc, c2_findIdx_aaa,
    ppSeries_length]
  norm_num

/-- C2 (amended): every reported rangePosition value is the average range
position over the eligible assets whose trailing-p window is non-degenerate
(positive close range), scaled to 0-100 — i.e. the denominator is
`countsValid[p]`, not the count of all assets with `p` prior candles. -/
theorem breadth_rangePosition_values (assets : List String)
    (km : List (String × List Kline)) (i : ℕ) (t : Int) (pt : BreadthPoint)
    (ht : (breadthTimeline km)[i]? = some t)
    (hpt : (processBreadthMetrics assets km).rangePosition[i]? = some pt) :
    pt.val20 = rangePositionValue assets (breadthAssetData assets km) t 20 ∧
    pt.val50 = rangePositionValue assets (breadthAssetData assets km) t 50 ∧
    pt.val100 = rangePositionValue assets (breadthAssetData assets km) t 100 := by
  by_cases hlen : ((km.lookup "BTC").getD []).length < 600
  · simp only [processBreadthMetrics, if_pos hlen] at hpt
    simp at hpt
  · rw [breadth_rangePosition_get assets km i t ht hlen] at hpt
    injection hpt with h
    rw [← h]
    exact ⟨rfl, rfl, rfl⟩

/-- C2 (witness): the amended theorem at the first date of the
two-asset counterexample run. -/
theorem breadth_rangePosition_values_witness :
    (⟨0, 100, 100, 100⟩ : BreadthPoint).val20 =
      rangePositionValue c2Assets (breadthAssetData c2Assets c2Map) 100 20 ∧
    (⟨0, 100, 100, 100⟩ : BreadthPoint).val50 =
      rangePositionValue c2Assets (breadthAssetData c2Assets c2Map) 100 50 ∧
    (⟨0, 100, 100, 100⟩ : BreadthPoint).val100 =
      rangePositionValue c2Assets (breadthAssetData c2Assets c2Map) 100 100 :=
  breadth_rangePosition_values c2Assets c2Map 0 100 ⟨0, 100, 100, 100⟩
    (by decide) c2_rangePosition_head

/-- C2 (counterexample): the reported rangePosition is not the average over
all assets with `p` prior candles.  In the concrete run, date 100 has two
eligible assets, one contributing range position 1 and one with a
zero-range window: the code reports 100, the claimed average is 50. -/
theorem breadth_rangePosition_claim_false :
    ¬ (∀ (assets : List String) (km : List (String × List Kline)) (i : ℕ)
        (t : Int) (pt : BreadthPoint),
        (breadthTimeline km)[i]? = some t →
        (processBreadthMetrics assets km).rangePosition[i]? = some pt →
        (pt.val20 = claimedRangePositionValue assets (breadthAssetData assets km) t 20 ∧
         pt.val50 = claimedRangePositionValue assets (breadthAssetData assets km) t 50 ∧
         pt.val100 = claimedRangePositionValue assets (breadthAssetData assets km) t 100)) := by
  intro h
  have h0 := (h c2Assets c2Map 0 100 ⟨0, 100, 100, 100⟩ (by decide)
    c2_rangePosition_head).1
  rw [c2_claimed20] at h0
  norm_num at h0

/-- The counterexample run has 92 reference return dates. -/
lemma c3_len : (corrAnalysisDates c3Map).length = 92 := by
  simp [corrAnalysisDates, c3Map, c3Btc, dayKlines, returnWrites]

lemma c3_dates : corrAnalysisDates c3Map =
    (List.range' 1 92).map fun (i : ℕ) => (i : Int) := by
  simp [corrAnalysisDates, c3Map, c3Btc, dayKlines, returnWrites, dayOf]
  decide

lemma c3_slice : corrSliceDates c3Map ((corrAnalysisDates c3Map).length - 1 - 0) 10 =
    [83, 84, 85, 86, 87, 88, 89, 90, 91, 92] := by
  rw [corrSliceDates, c3_dates]
  decide

lemma c3_matrixAssets : corrMatrixAssets c3Assets c3Map = ["BTC"] := by
  decide

lemma c3_alts : corrAlts c3Assets c3Map = [] := by
  rw [corrAlts, c3_matrixAssets]
  decide

lemma c3_lhs : altAvgAt (corrAlts c3Assets c3Map) (corrAllAssetReturns c3Assets c3Map)
    92 = 0 := by
  rw [c3_alts]
  simp [altAvgAt]

lemma c3_rhs : specAltMean c3Assets c3Map 92 = Real.log 8 := by
  simp +decide [specAltMean, c3Assets, c3Map, c3Btc, c3A2, dayKlines, returnsMapOf,
    returnWrites, recordOfWrites, dayOf, List.lookup, c3A2Close,
    List.filterMap_cons, List.filterMap_nil, List.filter_cons, List.filter_nil]

lemma altAvg_foldl {α : Type} (f : α → Option ℝ) (l : List α) (s0 : ℝ) (c0 : ℕ) :
    l.foldl (fun sc a => match f a with
      | some r => (sc.1 + r, sc.2 + 1)
      | none => sc) (s0, c0) =
      (s0 + (l.filterMap f).sum, c0 + (l.filterMap f).length) := by
  induction l generalizing s0 c0 with
  | nil => simp
  | cons a t ih =>
    rw [List.foldl_cons]
    cases hf : f a
    · simp [hf, ih, List.filterMap_cons]
    · simp [hf, ih, List.filterMap_cons, add_assoc]
      omega

lemma altAvgAt_eq (alts : List String) (allR : List (String × List (Int × ℝ)))
    (d : Int) :
    altAvgAt alts allR d =
      (let vals := alts.filterMap fun a => ((allR.lookup a).getD []).lookup d
       if vals.length ≠ 0 then vals.sum / (vals.length : ℝ) else 0) := by
  unfold altAvgAt
  rw [altAvg_foldl (fun a => ((allR.lookup a).getD []).lookup d) alts 0 0]
  simp only [zero_add]
  by_cases h : (alts.filterMap fun a => ((allR.lookup a).getD []).lookup d).length = 0
  · simp [h]
  · simp [h, Nat.pos_of_ne_zero h]

/-- C3 (amended): within the rolling-correlation history, the per-date
average-altcoin return equals the equal-weighted mean of the returns of the
matrix-included non-reference assets that have a return on that date (0
when none has one); assets dropped by the 30-date matrix alignment are
excluded from the whole series. -/
theorem corr_alt_average (assets : List String) (map : List (String × List Kline))
    (i w : ℕ) (d : Int) (hi : i < 90)
    (hlen : i + 91 ≤ (corrAnalysisDates map).length)
    (hw : w ∈ ([10, 30, 60, 90] : List ℕ))
    (hd : d ∈ corrSliceDates map ((corrAnalysisDates map).length - 1 - i) w) :
    altAvgAt (corrAlts assets map) (corrAllAssetReturns assets map) d =
      (let vals := (corrAlts assets map).filterMap fun a =>
          (((corrAllAssetReturns assets map).lookup a).getD []).lookup d
       if vals.length ≠ 0 then vals.sum / (vals.length : ℝ) else 0) :=
  altAvgAt_eq (corrAlts assets map) (corrAllAssetReturns assets map) d

/-- C3 (witness): the amended statement at the newest window date of the
counterexample run. -/
theorem corr_alt_average_witness :
    altAvgAt (corrAlts c3Assets c3Map) (corrAllAssetReturns c3Assets c3Map) 92 =
      (let vals := (corrAlts c3Assets c3Map).filterMap fun a =>
          (((corrAllAssetReturns c3Assets c3Map).lookup a).getD []).lookup 92
       if vals.length ≠ 0 then vals.sum / (vals.length : ℝ) else 0) :=
  corr_alt_average c3Assets c3Map 0 10 92 (by norm_num)
    (by rw [c3_len]; norm_num) (by decide) (by rw [c3_slice]; decide)

/-- C3 (counterexample): the average-altcoin return is not the mean over
all non-reference assets with a return that day.  In the concrete run the
altcoin "A2" has a return on day 92 but is excluded from the whole series
by the matrix alignment: the code's average is 0 (no alts), the claimed
mean is log 8 ≠ 0. -/
theorem corr_alt_average_claim_false :
    ¬ (∀ (assets : List String) (map : List (String × List Kline)) (i w : ℕ)
        (d : Int), i < 90 → i + 91 ≤ (corrAnalysisDates map).length →
        w ∈ ([10, 30, 60, 90] : List ℕ) →
        d ∈ corrSliceDates map ((corrAnalysisDates map).length - 1 - i) w →
        altAvgAt (corrAlts assets map) (corrAllAssetReturns assets map) d =
          specAltMean assets map d) := by
  intro h
  have h0 := h c3Assets c3Map 0 10 92 (by norm_num) (by rw [c3_len]; norm_num)
    (by decide) (by rw [c3_slice]; decide)
  rw [c3_lhs, c3_rhs] at h0
  exact absurd h0.symm (ne_of_gt (Real.log_pos (by norm_num)))
